import Mathlib

/-!
Shallow embedding of the EdgePlugHub plugin host (src/plugins/manager.py,
src/core/events.py, src/core/threading.py) and proofs about its
specification claims.

Python dicts are modelled as association lists (or total functions with a
default, where only lookups matter), Python lists as Lean lists, and the
environment-dependent parts (filesystem, module import, pip) as an explicit
`Env` of oracles.  Machine behaviour that raises exceptions is modelled by
boolean "raises" flags on plugin instances and by `Option`/failure results.
-/

namespace EdgePlugHub

/-- Association-list lookup keyed by the first component
(models Python `dict[k]` / `dict.get(k)`). -/
def alistGet {α : Type} (k : String) (m : List (String × α)) : Option α :=
  (m.find? (fun e => e.1 == k)).map Prod.snd

/-- Association-list insert-or-overwrite, preserving the position of an
existing key (models Python `dict[k] = v`). -/
def alistPut {α : Type} (m : List (String × α)) (k : String) (v : α) :
    List (String × α) :=
  if (m.find? (fun e => e.1 == k)).isSome then
    m.map (fun e => if e.1 == k then (k, v) else e)
  else
    m ++ [(k, v)]

/-! ### Data model (data/repository.py rows, manifest metadata) -/

/-- The slice of a plugin's `metadata` JSON that the manager reads:
`dependencies` (list of dependency ids) and `builtin`. -/
structure PluginMetadata where
  dependencies : List String
  builtin : Bool
deriving DecidableEq, Repr

/-- A persisted plugin row (repository.py `plugins` table; `id` is the
primary key, so distinct rows have distinct ids). -/
structure PluginRecord where
  id : String
  name : String
  version : String
  enabled : Bool
  metadata : PluginMetadata
deriving DecidableEq, Repr

/-- `Repository.get_plugin`: SELECT by primary key. -/
def getPlugin (repo : List PluginRecord) (pid : String) : Option PluginRecord :=
  repo.find? (fun r => r.id == pid)

/-- `Repository.save_plugin`: INSERT OR REPLACE keyed by id. -/
def savePlugin (repo : List PluginRecord) (r : PluginRecord) :
    List PluginRecord :=
  if (repo.find? (fun x => x.id == r.id)).isSome then
    repo.map (fun x => if x.id == r.id then r else x)
  else
    repo ++ [r]

/-- `Repository.delete_plugin`: DELETE by id. -/
def deletePlugin (repo : List PluginRecord) (pid : String) :
    List PluginRecord :=
  repo.filter (fun r => ¬ (r.id == pid))

/-- `Repository.set_plugin_enabled`: UPDATE plugins SET enabled WHERE id. -/
def setPluginEnabled (repo : List PluginRecord) (pid : String) (b : Bool) :
    List PluginRecord :=
  repo.map (fun r => if r.id == pid then { r with enabled := b } else r)

/-! ### `PluginManager._is_python_package_dependency`

The regex `^[a-zA-Z0-9_\-]+([><=]=?[0-9\.]+)?$` is translated literally.
Because the optional version group must start with `>`, `<` or `=` — none of
which is a name character — greedy maximal-munch of the name part is exactly
equivalent to the regex. -/

/-- Characters matched by `[a-zA-Z0-9_\-]`. -/
def isPkgNameChar (c : Char) : Bool :=
  c.isAlpha || c.isDigit || c = '_' || c = '-'

/-- Characters matched by `[0-9\.]`. -/
def isVerChar (c : Char) : Bool :=
  c.isDigit || c = '.'

/-- Characters matched by `[><=]`. -/
def isOpChar (c : Char) : Bool :=
  c = '>' || c = '<' || c = '='

/-- Matches the optional group `([><=]=?[0-9\.]+)?` against the whole rest. -/
def matchVersionPart : List Char → Bool
  | [] => true
  | c :: rest =>
    if isOpChar c then
      let rest' := match rest with
        | '=' :: r => r
        | r => r
      !rest'.isEmpty && rest'.all isVerChar
    else false

/-- Matches `^[a-zA-Z0-9_\-]+([><=]=?[0-9\.]+)?$` against the whole string. -/
def matchPkgPattern (s : List Char) : Bool :=
  let name := s.takeWhile isPkgNameChar
  let rest := s.dropWhile isPkgNameChar
  !name.isEmpty && matchVersionPart rest

/-- `PluginManager._is_python_package_dependency`.  The trailing UUID check
in the source always returns `False`, which coincides with the fall-through
result, so the function reduces to the pattern match  (on the part before
`;` when one is present). -/
def isPythonPackageDependency (depId : String) : Bool :=
  if depId.data.contains ';' then
    matchPkgPattern (((depId.splitOn ";").headD "").trim.data)
  else
    matchPkgPattern depId.data

/-! ### Manager state -/

/-- Behaviour of a plugin instance: whether each lifecycle call raises.
(`initialize`, `start`, `stop`, `cleanup` in the plugin contract.) -/
structure PluginInstance where
  initRaises : Bool
  startRaises : Bool
  stopRaises : Bool
  cleanupRaises : Bool
deriving DecidableEq, Repr

/-- Environment oracles for the effects `load_plugin`/`install_plugin`
perform outside the manager's own state:
* `moduleOk pid` — the plugin path exists, the main module file exists and
  executes without raising (manager.py lines 340-369);
* `instanceOf pid` — the `Plugin` class (or `run_non_interactive` adapter)
  is found and its constructor returns an instance (lines 375-505); `none`
  models "no Plugin class / constructor raised";
* `pyPkgOk dep` — the Python-package dependency is importable or pip
  installs it successfully (`_check_python_package` / `_install_python_package`). -/
structure Env where
  moduleOk : String → Bool
  instanceOf : String → Option PluginInstance
  pyPkgOk : String → Bool

/-- The mutable fields of `PluginManager` together with the repository rows
and the on-disk plugin directories the manager touches.
`pluginDependencies`/`dependentPlugins` model the two dicts as total
functions defaulting to `[]` (the code only reads them via `dict.get(k, [])`
or iterates keys it rebuilds itself). -/
structure ManagerState where
  loadedPlugins : List (String × PluginInstance)
  pluginModules : List String
  pluginDependencies : String → List String
  dependentPlugins : String → List String
  pluginLoadOrder : List String
  repo : List PluginRecord
  userFiles : List String
  builtinFiles : List String

/-- `plugin_id in self.loaded_plugins`. -/
def isLoaded (s : ManagerState) (pid : String) : Bool :=
  (s.loadedPlugins.find? (fun e => e.1 == pid)).isSome

/-! ### `PluginManager.load_plugin` (manager.py lines 286-530)

The Python function recurses into `load_plugin` for unloaded plugin
dependencies; with cyclic dependencies that recursion never reaches a base
case (the id is added to `loaded_plugins` only *after* dependency
resolution) and dies with a stack overflow which the outer `except` turns
into `False`.  Recursion depth is therefore modelled with fuel, with fuel
exhaustion returning failure. -/

/-- The dependency loop of `load_plugin` (lines 315-337): Python-package
dependencies go through check/pip-install, plugin dependencies through a
recursive `load_plugin` call; the first failure aborts (the exception is
caught by the caller, keeping all state changes made so far). -/
def loadDeps (loadFn : ManagerState → String → ManagerState × Bool)
    (env : Env) : ManagerState → List String → ManagerState × Bool
  | s, [] => (s, true)
  | s, dep :: rest =>
    if isPythonPackageDependency dep then
      if env.pyPkgOk dep then loadDeps loadFn env s rest
      else (s, false)
    else if isLoaded s dep then loadDeps loadFn env s rest
    else
      let r := loadFn s dep
      if r.2 then loadDeps loadFn env r.1 rest else (r.1, false)

/-- `PluginManager.load_plugin`.  Note the source stores the module (line
372) and the instance (line 508) in the manager's maps *before* calling
`initialize()`/`start()` (lines 511-512); the `except` handler (525-530)
returns `False` without removing them. -/
def loadPlugin (env : Env) : Nat → ManagerState → String → ManagerState × Bool
  | 0, s, _ => (s, false)
  | fuel + 1, s, pid =>
    if isLoaded s pid then (s, true)
    else
      match getPlugin s.repo pid with
      | none => (s, false)
      | some r =>
        if !r.enabled then (s, false)
        else
          let d := loadDeps (fun s' dep => loadPlugin env fuel s' dep) env s
            r.metadata.dependencies
          if !d.2 then (d.1, false)
          else if !env.moduleOk pid then (d.1, false)
          else
            let s2 := { d.1 with
              pluginModules :=
                if d.1.pluginModules.contains pid then d.1.pluginModules
                else d.1.pluginModules ++ [pid] }
            match env.instanceOf pid with
            | none => (s2, false)
            | some inst =>
              let s3 := { s2 with
                loadedPlugins := alistPut s2.loadedPlugins pid inst }
              if inst.initRaises then (s3, false)
              else if inst.startRaises then (s3, false)
              else (s3, true)

/-! ### `PluginManager.unload_plugin` (manager.py lines 549-607) -/

/-- Lifecycle calls made on a plugin instance, recorded as an effect log. -/
inductive UEff where
  | stopCall (pid : String)
  | cleanupCall (pid : String)
deriving DecidableEq, Repr

/-- Result of `unload_plugin`: the state afterwards, the boolean return
value, the `stop`/`cleanup` calls that were made, and — when the
dependents-block `PluginError` was raised — the dependent ids it reported. -/
structure UnloadResult where
  state : ManagerState
  ok : Bool
  calls : List UEff
  blockedBy : Option (List String)

/-- `PluginManager.unload_plugin`.  The dependents check (lines 566-574)
uses `self.dependent_plugins.get(plugin_id, [])` filtered to currently
loaded ids; a non-empty result raises `PluginError` listing those ids,
which the handler turns into a `False` return with no state change.  A
`stop()`/`cleanup()` exception likewise aborts before any map entry is
removed. -/
def unloadPlugin (s : ManagerState) (pid : String) : UnloadResult :=
  if !isLoaded s pid then ⟨s, true, [], none⟩
  else
    if !((s.dependentPlugins pid).filter (fun q => isLoaded s q)).isEmpty then
      ⟨s, false, [], some ((s.dependentPlugins pid).filter (fun q => isLoaded s q))⟩
    else
      match s.loadedPlugins.find? (fun e => e.1 == pid) with
      | none => ⟨s, false, [], none⟩
      | some e =>
        if e.2.stopRaises then ⟨s, false, [UEff.stopCall pid], none⟩
        else if e.2.cleanupRaises then
          ⟨s, false, [UEff.stopCall pid, UEff.cleanupCall pid], none⟩
        else
          ⟨{ s with
              loadedPlugins := s.loadedPlugins.filter (fun x => ¬ (x.1 == pid)),
              pluginModules := s.pluginModules.filter (fun m => ¬ (m == pid)) },
            true, [UEff.stopCall pid, UEff.cleanupCall pid], none⟩

/-! ### `PluginManager.stop_all_plugins` (manager.py lines 1020-1047) -/

/-- The loop body of `stop_all_plugins`: walk the reversed load order,
call `stop()` on each still-loaded plugin, turn a raise into
`success = False` and keep going.  The loaded-plugin map itself is never
modified. -/
def stopAllList (s : ManagerState) : List String → Bool → Bool × List UEff
  | [], success => (success, [])
  | pid :: rest, success =>
    match s.loadedPlugins.find? (fun e => e.1 == pid) with
    | none => stopAllList s rest success
    | some e =>
      let success' := if e.2.stopRaises then false else success
      let r := stopAllList s rest success'
      (r.1, UEff.stopCall pid :: r.2)

/-- `PluginManager.stop_all_plugins`: iterates `reversed(plugin_load_order)`
and returns the aggregate success flag; no entry is removed from
`loaded_plugins` and `cleanup()` is never called. -/
def stopAllPlugins (s : ManagerState) : ManagerState × Bool × List UEff :=
  let r := stopAllList s s.pluginLoadOrder.reverse true
  (s, r.1, r.2)

/-! ### `PluginManager.uninstall_plugin` (manager.py lines 774-830) -/

/-- `PluginManager.uninstall_plugin`.  There is no builtin guard on the
operation as a whole: `builtin` only gates the file deletion (lines
803-805); `repository.delete_plugin` (line 808) runs unconditionally.
`_remove_plugin_data` touches only the config store, which is outside the
modelled state. -/
def uninstallPlugin (s : ManagerState) (pid : String) (_removeData : Bool) :
    ManagerState × Bool :=
  match getPlugin s.repo pid with
  | none => (s, false)
  | some r =>
    let u := if isLoaded s pid then unloadPlugin s pid
             else ⟨s, true, [], none⟩
    if !u.ok then (u.state, false)
    else
      let s1 := u.state
      let pathExists := if r.metadata.builtin then s1.builtinFiles.contains pid
                        else s1.userFiles.contains pid
      let s2 := if pathExists && !r.metadata.builtin then
                  { s1 with userFiles := s1.userFiles.filter (fun f => ¬ (f == pid)) }
                else s1
      ({ s2 with repo := deletePlugin s2.repo pid }, true)

/-! ### `PluginManager.install_plugin` (manager.py lines 609-772)

The package argument stands for the contents reachable from `plugin_path`:
`none` models every failure up to and including manifest discovery (not a
zip / extraction failed / no manifest.json); `some m` models a parsed
manifest whose required fields may still be missing (`Option` fields). -/

/-- A parsed `manifest.json`; `none` in a field means the key is absent. -/
structure Manifest where
  manifestId : Option String
  manifestName : Option String
  manifestVersion : Option String
  dependencies : List String
  builtin : Bool
deriving DecidableEq, Repr

/-- Result dict of `install_plugin` (the fields the callers read). -/
structure InstallResult where
  success : Bool
  version : Option String
deriving DecidableEq, Repr

/-- `PluginManager.install_plugin`.  Validation order follows the source:
manifest presence, required fields (lines 667-671), Python-package
dependencies (677-694), already-installed check (696-702); only then the
unload of a loaded existing plugin (708-710), the file copy (713-717), the
`save_plugin` (735) and — when `enable` — a `load_plugin` call (748-749).
Every failure path precedes the first state mutation, so a failed install
returns the state unchanged. -/
def installPlugin (env : Env) (fuel : Nat) (s : ManagerState)
    (pkg : Option Manifest) (enable force : Bool) :
    ManagerState × InstallResult :=
  match pkg with
  | none => (s, ⟨false, none⟩)
  | some m =>
    match m.manifestId, m.manifestName, m.manifestVersion with
    | some pid, some pname, some pver =>
      if !((m.dependencies.filter isPythonPackageDependency).all env.pyPkgOk)
      then (s, ⟨false, none⟩)
      else
        let existing := getPlugin s.repo pid
        if existing.isSome && !force then (s, ⟨false, none⟩)
        else
          let s1 := if existing.isSome && isLoaded s pid then
                      (unloadPlugin s pid).state
                    else s
          let s2 := { s1 with
            userFiles := (s1.userFiles.filter (fun f => ¬ (f == pid))) ++ [pid] }
          let s3 := { s2 with
            repo := savePlugin s2.repo
              { id := pid, name := pname, version := pver, enabled := enable,
                metadata := ⟨m.dependencies, m.builtin⟩ } }
          let s4 := if enable then (loadPlugin env fuel s3 pid).1 else s3
          (s4, ⟨true, some pver⟩)
    | _, _, _ => (s, ⟨false, none⟩)

/-! ### `PluginManager.enable_plugin` (manager.py lines 847-896) and
`PluginManager.update_plugin` (lines 1068-1182) -/

/-- `PluginManager.enable_plugin`: set the enabled flag, try to load, and
revert the flag to disabled when loading fails. -/
def enablePlugin (env : Env) (fuel : Nat) (s : ManagerState) (pid : String) :
    ManagerState × Bool :=
  match getPlugin s.repo pid with
  | none => (s, false)
  | some r =>
    if r.enabled && isLoaded s pid then (s, true)
    else
      let s1 := { s with repo := setPluginEnabled s.repo pid true }
      let l := loadPlugin env fuel s1 pid
      if l.2 then (l.1, true)
      else ({ l.1 with repo := setPluginEnabled l.1.repo pid false }, false)

/-- `PluginManager.update_plugin` with an explicit package path (the
download-on-`None`-path flow involves cross-thread waiting and is not
modelled).  Records `(was_enabled, was_loaded)`, unloads when loaded,
installs with `enable=False, force=True`, and re-enables when the plugin
was enabled (or auto-restart is requested).  A failure raises `PluginError`,
caught into a `success: False` return — with no re-load of a plugin that
was already unloaded. -/
def updatePlugin (env : Env) (fuel : Nat) (s : ManagerState) (pid : String)
    (pkg : Option Manifest) (autoRestart : Bool) : ManagerState × Bool :=
  match getPlugin s.repo pid with
  | none => (s, false)
  | some r =>
    let wasEnabled := r.enabled
    let wasLoaded := isLoaded s pid
    let u := if wasLoaded then unloadPlugin s pid else ⟨s, true, [], none⟩
    if !u.ok then (u.state, false)
    else
      let i := installPlugin env fuel u.state pkg false true
      if !i.2.success then (i.1, false)
      else
        let s2 := if wasEnabled || autoRestart then (enablePlugin env fuel i.1 pid).1
                  else i.1
        (s2, true)

/-! ### `_analyze_plugin_dependencies` / `_determine_load_order`
(manager.py lines 229-284)

The enabled plugins are carried as `(id, dependencies)` pairs in repository
order.  `_analyze_plugin_dependencies` builds two dicts:
`plugin_dependencies[id] = deps` and, by appending `id` to
`dependent_plugins[dep]` once per occurrence of `dep` in `deps`, a bucket
whose content for key `d` is exactly the ids of the plugins (in list order,
with multiplicity) that list `d` among their dependencies — which is what
`dependentsOf` computes directly.  Record ids are a primary key, so the
pair lists of interest have pairwise-distinct first components. -/

/-- The enabled plugins as `(id, declared dependencies)` pairs. -/
abbrev PluginsList := List (String × List String)

/-- `self.plugin_dependencies[pid]` after `_analyze_plugin_dependencies`
ran on `plugins` (dict lookup; `[]` off the key set). -/
def depsOf (plugins : PluginsList) (pid : String) : List String :=
  ((plugins.find? (fun p => p.1 == pid)).map Prod.snd).getD []

/-- `self.dependent_plugins.get(d, [])` after `_analyze_plugin_dependencies`
ran on `plugins`: one copy of `p.1` per occurrence of `d` in `p.2`,
in build order. -/
def dependentsOf (plugins : PluginsList) (d : String) : List String :=
  plugins.flatMap (fun p => (p.2.filter (fun x => x == d)).map (fun _ => p.1))

/-- The in-degree dict `{id: len(deps)}`, as a total function (only keys of
`plugins` are ever read or written). -/
def initInDegree (plugins : PluginsList) (pid : String) : Int :=
  ((depsOf plugins pid).length : Int)

/-- The inner loop of `_determine_load_order` (lines 272-276): for each
dependent of the just-dequeued id, decrement its in-degree and enqueue it
when the new value is zero. -/
def processDependents (indeg : String → Int) (queue : List String) :
    List String → (String → Int) × List String
  | [] => (indeg, queue)
  | d :: rest =>
    let indeg' := fun x => if x = d then indeg x - 1 else indeg x
    let queue' := if indeg' d = 0 then queue ++ [d] else queue
    processDependents indeg' queue' rest

/-- The `while queue:` loop of `_determine_load_order` (lines 267-276),
fuelled.  Each iteration dequeues the front id into the order; the fuel
passed by `determineLoadOrder` exceeds the number of ids, which bounds the
number of iterations. -/
def topoLoop (plugins : PluginsList) :
    Nat → (String → Int) → List String → List String → List String
  | 0, _, _, order => order
  | fuel + 1, indeg, queue, order =>
    match queue with
    | [] => order
    | q :: rest =>
      let step := processDependents indeg rest (dependentsOf plugins q)
      topoLoop plugins fuel step.1 step.2 (order ++ [q])

/-- `PluginManager._determine_load_order`: Kahn's algorithm over the
enabled ids, then (lines 279-284) — when fewer ids were ordered than exist —
append every id not yet in the order. -/
def determineLoadOrder (plugins : PluginsList) : List String :=
  let keys := plugins.map Prod.fst
  let queue := keys.filter (fun pid => decide (initInDegree plugins pid = 0))
  let order := topoLoop plugins (keys.length + 1) (initInDegree plugins) queue []
  if order.length < keys.length then
    order ++ keys.filter (fun pid => decide (pid ∉ order))
  else order

/-! ### `PluginManager.load_installed_plugins` (manager.py lines 184-227) -/

/-- The per-id loop of `load_installed_plugins` (lines 206-216): skip ids
without a record in the enabled list, otherwise call `load_plugin`;
individual failures are logged and do not abort the batch.  The returned
log records each `load_plugin` call and its result, in call order. -/
def loadSeq (env : Env) (fuel : Nat) :
    ManagerState → List String → List String → ManagerState × List (String × Bool)
  | s, [], _ => (s, [])
  | s, pid :: rest, enabledIds =>
    if enabledIds.contains pid then
      let l := loadPlugin env fuel s pid
      let r := loadSeq env fuel l.1 rest enabledIds
      (r.1, (pid, l.2) :: r.2)
    else loadSeq env fuel s rest enabledIds

/-- `PluginManager.load_installed_plugins`: fetch the enabled records,
rebuild the dependency maps and the load order, then load each ordered id
in turn. -/
def loadInstalledPlugins (env : Env) (fuel : Nat) (s : ManagerState) :
    ManagerState × List (String × Bool) :=
  let enabledRecs := s.repo.filter (fun r => r.enabled)
  if enabledRecs.isEmpty then (s, [])
  else
    let pairs : PluginsList := enabledRecs.map (fun r => (r.id, r.metadata.dependencies))
    let s1 := { s with
      pluginDependencies := fun pid => depsOf pairs pid,
      dependentPlugins := fun d => dependentsOf pairs d,
      pluginLoadOrder := determineLoadOrder pairs }
    loadSeq env fuel s1 s1.pluginLoadOrder (pairs.map Prod.fst)

/-! ### `EventSystem` (core/events.py)

Subscriber callbacks are modelled as small programs over the bus state, so
that a callback can itself subscribe, unsubscribe or publish while a
publish call is iterating.  `publish` (lines 92-116) copies the subscriber
list for the event type under the lock and releases the lock before
invoking the callbacks, so the iteration is over that snapshot; the model
makes the snapshot explicit and threads the live state through the
callbacks.  Nested `publish` depth is fuelled (the lock is reentrant-free
here because it is released before callbacks run). -/

/-- A callback action: subscribe another callback, unsubscribe, or publish
an event (re-entrantly). -/
inductive Act where
  | subscribeAct (ev : String) (sid : String) (body : List Act)
  | unsubscribeAct (ev : String) (sid : String)
  | publishAct (ev : String)

/-- The `_subscribers` dict: event type to list of `(subscriber_id,
callback)` pairs. -/
abbrev Subs := List (String × List (String × List Act))

/-- `EventSystem.subscribe` (lines 34-55): create the event-type entry when
missing, then append the `(subscriber_id, callback)` pair. -/
def subscribeE (subs : Subs) (ev sid : String) (cb : List Act) : Subs :=
  if (subs.find? (fun e => e.1 == ev)).isSome then
    subs.map (fun e => if e.1 == ev then (e.1, e.2 ++ [(sid, cb)]) else e)
  else
    subs ++ [(ev, [(sid, cb)])]

/-- `EventSystem.unsubscribe` (lines 57-90): filter out the subscriber id,
drop the event-type entry when the list becomes empty, and report whether
the count decreased. -/
def unsubscribeE (subs : Subs) (ev sid : String) : Subs × Bool :=
  match subs.find? (fun e => e.1 == ev) with
  | none => (subs, false)
  | some entry =>
    let newLst := entry.2.filter (fun p => ¬ (p.1 == sid))
    let subs' :=
      if newLst.isEmpty then subs.filter (fun e => ¬ (e.1 == ev))
      else subs.map (fun e => if e.1 == ev then (e.1, newLst) else e)
    (subs', newLst.length < entry.2.length)

/-- Result of a `publish` call: the bus state afterwards, the subscriber
ids this call invoked directly (in invocation order), and the full
invocation log `(eventType, subscriberId)` including nested publishes. -/
structure PubResult where
  subs : Subs
  direct : List String
  log : List (String × String)

mutual

/-- Run one callback body, threading the bus state; `publishAct` re-enters
`publish` through the supplied continuation `pub`. -/
def execActs (pub : Subs → String → Subs × List (String × String)) :
    List Act → Subs → Subs × List (String × String)
  | [], s => (s, [])
  | Act.subscribeAct ev sid body :: rest, s =>
    execActs pub rest (subscribeE s ev sid body)
  | Act.unsubscribeAct ev sid :: rest, s =>
    execActs pub rest (unsubscribeE s ev sid).1
  | Act.publishAct ev :: rest, s =>
    let p := pub s ev
    let r := execActs pub rest p.1
    (r.1, p.2 ++ r.2)

/-- The callback loop of `publish` (lines 110-116): invoke each snapshot
entry in turn on the live state.  A raising callback is caught by
`_execute_callback` and does not stop the loop; callback bodies here
always return, so no separate raise case is needed. -/
def runCbs (pub : Subs → String → Subs × List (String × String)) (ev : String) :
    List (String × List Act) → Subs → Subs × List String × List (String × String)
  | [], s => (s, [], [])
  | entry :: rest, s =>
    let c := execActs pub entry.2 s
    let r := runCbs pub ev rest c.1
    (r.1, entry.1 :: r.2.1, (ev, entry.1) :: (c.2 ++ r.2.2))

end

/-- `EventSystem.publish`: take the snapshot of the subscriber list for the
event type (empty when the key is absent, matching the early return), then
iterate the snapshot.  `fuel` bounds nesting depth of re-entrant publishes;
a zero-fuel publish delivers nothing. -/
def publishE : Nat → Subs → String → PubResult
  | 0, s, _ => ⟨s, [], []⟩
  | fuel + 1, s, ev =>
    let snapshot := ((s.find? (fun e => e.1 == ev)).map Prod.snd).getD []
    let r := runCbs (fun s' ev' => let p := publishE fuel s' ev'; (p.subs, p.log))
      ev snapshot s
    ⟨r.1, r.2.1, r.2.2⟩

/-! ### `Worker.run` / `ThreadManager.run_task` (core/threading.py)

A task function either returns a value or raises; a raise carries the
exception message `str(e)` and the traceback text.  `Worker.run` (lines
43-57) emits the `result` or `error` signal accordingly and then the
`finished` signal in the `finally` block.  `run_task` (lines 76-103)
connects the caller's callbacks to those signals, so a callback fires for
each emitted signal it is connected to. -/

/-- Signals emitted by a worker (`WorkerSignals`). -/
inductive TaskSignal (α : Type) where
  | resultSig (value : α)
  | errorSig (message : String) (detail : String)
  | finishedSig
deriving DecidableEq, Repr

/-- `Worker.run`: try the function, emit `result` on success or `error`
with message and traceback on a raise, then always emit `finished`. -/
def workerRun {α : Type} (fn : Except (String × String) α) : List (TaskSignal α) :=
  match fn with
  | Except.ok v => [TaskSignal.resultSig v, TaskSignal.finishedSig]
  | Except.error e => [TaskSignal.errorSig e.1 e.2, TaskSignal.finishedSig]

/-- Which of the three callbacks passed to `run_task` fires. -/
inductive CbFire where
  | onResultCb
  | onErrorCb
  | onFinishedCb
deriving DecidableEq, Repr

/-- Delivery of emitted signals to the connected callbacks (`run_task`
connects each supplied callback to the matching signal). -/
def deliverSignals {α : Type} (hasR hasE hasF : Bool) :
    List (TaskSignal α) → List CbFire
  | [] => []
  | TaskSignal.resultSig _ :: rest =>
    (if hasR then [CbFire.onResultCb] else []) ++ deliverSignals hasR hasE hasF rest
  | TaskSignal.errorSig _ _ :: rest =>
    (if hasE then [CbFire.onErrorCb] else []) ++ deliverSignals hasR hasE hasF rest
  | TaskSignal.finishedSig :: rest =>
    (if hasF then [CbFire.onFinishedCb] else []) ++ deliverSignals hasR hasE hasF rest

/-! ## Concrete fixtures shared by several claims -/

/-- An instance none of whose lifecycle calls raises. -/
def benignInst : PluginInstance := ⟨false, false, false, false⟩

/-- An instance whose `initialize()` raises. -/
def initFailInst : PluginInstance := ⟨true, false, false, false⟩

/-- A minimal plugin record. -/
def mkRecord (i : String) (deps : List String) (en b : Bool) : PluginRecord :=
  ⟨i, i, "1.0", en, ⟨deps, b⟩⟩

/-- Environment where every module resolves and every instance behaves. -/
def envAllOk : Env := ⟨fun _ => true, fun _ => some benignInst, fun _ => true⟩

/-- Environment where instantiation succeeds but `initialize()` raises. -/
def envInitFail : Env := ⟨fun _ => true, fun _ => some initFailInst, fun _ => true⟩

/-! ## Claim C1 -/

/-- Fresh manager with one enabled, non-builtin record and nothing loaded. -/
def stateC1 : ManagerState :=
  ⟨[], [], fun _ => [], fun _ => [], [], [mkRecord "p.alpha" [] true false], [], []⟩

/-- Claim C1 (code bug, evaluated at the failing input): for the enabled
plugin `p.alpha` whose instance's `initialize()` raises, `load_plugin`
returns failure but — contrary to the claim and to the spec's "plugin left
unloaded (not partially loaded)" — the instance entry stays in
`loaded_plugins` and the module entry stays in `plugin_modules`, both of
which were empty before the call.  The source stores both entries
(manager.py lines 372 and 508) before calling `initialize()`/`start()`
(lines 511-512), and the handler (525-530) returns `False` without removing
them. -/
theorem c1_load_failure_partial_state :
    (loadPlugin envInitFail 2 stateC1 "p.alpha").2 = false ∧
    isLoaded (loadPlugin envInitFail 2 stateC1 "p.alpha").1 "p.alpha" = true ∧
    (loadPlugin envInitFail 2 stateC1 "p.alpha").1.pluginModules = ["p.alpha"] ∧
    (loadPlugin envInitFail 2 stateC1 "p.alpha").1.loadedPlugins
      = [("p.alpha", initFailInst)] ∧
    stateC1.loadedPlugins = [] ∧ stateC1.pluginModules = [] :=
  ⟨rfl, rfl, rfl, rfl, rfl, rfl⟩

/-! ## Claim C2 -/

/-- Manager with one builtin, enabled, unloaded record whose directory
exists under the builtin plugins dir. -/
def stateC2 : ManagerState :=
  ⟨[], [], fun _ => [], fun _ => [], [], [mkRecord "b.core" [] true true], [],
    ["b.core"]⟩

/-- Claim C2 counterexample: uninstalling the builtin plugin `b.core` does
not fail — it returns success and deletes the `PluginRecord` from the
repository (manager.py line 808 runs unconditionally); only the file
deletion is guarded by `builtin` (lines 803-805). -/
theorem c2_uninstall_builtin_counterexample :
    (getPlugin stateC2.repo "b.core").map (fun r => r.metadata.builtin)
      = some true ∧
    (uninstallPlugin stateC2 "b.core" false).2 = true ∧
    getPlugin (uninstallPlugin stateC2 "b.core" false).1.repo "b.core" = none :=
  ⟨rfl, rfl, rfl⟩

/-- Claim C2 amended: `uninstall_plugin` on a builtin plugin (not currently
loaded) succeeds; it removes no on-disk plugin files, but it does delete
the `PluginRecord` from the repository. -/
theorem c2_uninstall_builtin_amended (s : ManagerState) (pid : String)
    (r : PluginRecord) (removeData : Bool)
    (h1 : getPlugin s.repo pid = some r) (h2 : r.metadata.builtin = true)
    (h3 : isLoaded s pid = false) :
    uninstallPlugin s pid removeData
      = ({ s with repo := deletePlugin s.repo pid }, true) := by
  unfold uninstallPlugin
  rw [h1]
  simp [h3, h2]

/-- Witness for the amended C2 theorem at the concrete builtin state. -/
theorem c2_uninstall_builtin_amended_witness :
    getPlugin stateC2.repo "b.core" = some (mkRecord "b.core" [] true true) ∧
    isLoaded stateC2 "b.core" = false ∧
    uninstallPlugin stateC2 "b.core" false
      = ({ stateC2 with repo := deletePlugin stateC2.repo "b.core" }, true) :=
  ⟨rfl, rfl,
    c2_uninstall_builtin_amended stateC2 "b.core" (mkRecord "b.core" [] true true)
      false rfl rfl rfl⟩

/-! ## Claim C6 -/

/-- Records for the A-depends-on-B-depends-on-C chain of the claim.  Ids
contain a dot so that the dependency strings are treated as plugin ids
rather than Python-package requirements by
`_is_python_package_dependency`. -/
def repoC6 : List PluginRecord :=
  [mkRecord "plug.A" ["plug.B"] true false,
   mkRecord "plug.B" ["plug.C"] true false,
   mkRecord "plug.C" [] true false]

/-- The `(id, dependencies)` pairs `_analyze_plugin_dependencies` derives
from `repoC6`. -/
def pairsC6 : PluginsList :=
  [("plug.A", ["plug.B"]), ("plug.B", ["plug.C"]), ("plug.C", [])]

/-- Fresh manager holding exactly the three chain records. -/
def stateC6 : ManagerState :=
  ⟨[], [], fun _ => [], fun _ => [], [], repoC6, [], []⟩

/-- Claim C6: with enabled plugins exactly A, B, C where A depends on B and
B depends on C, the in-degree/zero-dequeue algorithm of
`_determine_load_order` computes the order C, B, A, and
`load_installed_plugins` issues its `load_plugin` calls in exactly that
order, each succeeding, ending with all three loaded in that order. -/
theorem c6_load_order_chain :
    determineLoadOrder pairsC6 = ["plug.C", "plug.B", "plug.A"] ∧
    (loadInstalledPlugins envAllOk 5 stateC6).1.pluginLoadOrder
      = ["plug.C", "plug.B", "plug.A"] ∧
    (loadInstalledPlugins envAllOk 5 stateC6).2
      = [("plug.C", true), ("plug.B", true), ("plug.A", true)] ∧
    (loadInstalledPlugins envAllOk 5 stateC6).1.loadedPlugins.map Prod.fst
      = ["plug.C", "plug.B", "plug.A"] :=
  ⟨rfl, by decide, by decide, by decide⟩

/-! ## Claim C8 -/

/-- Claim C8: per task, exactly one of the result/error callbacks fires —
the error callback (with the exception message and the traceback detail)
when the task function raises, the result callback otherwise — and the
finished callback fires exactly once, afterwards.  The last conjunct checks
the counts and ordering for an arbitrary outcome. -/
theorem c8_worker_callbacks {α : Type} (v : α) (m tb : String) :
    workerRun (Except.ok v)
      = [TaskSignal.resultSig v, TaskSignal.finishedSig] ∧
    workerRun (Except.error (m, tb) : Except (String × String) α)
      = [TaskSignal.errorSig m tb, TaskSignal.finishedSig] ∧
    deliverSignals true true true (workerRun (Except.ok v))
      = [CbFire.onResultCb, CbFire.onFinishedCb] ∧
    deliverSignals true true true
        (workerRun (Except.error (m, tb) : Except (String × String) α))
      = [CbFire.onErrorCb, CbFire.onFinishedCb] ∧
    ∀ fn : Except (String × String) α,
      (deliverSignals true true true (workerRun fn)).count CbFire.onFinishedCb = 1 ∧
      (deliverSignals true true true (workerRun fn)).count CbFire.onResultCb
        + (deliverSignals true true true (workerRun fn)).count CbFire.onErrorCb = 1 ∧
      (deliverSignals true true true (workerRun fn)).getLast?
        = some CbFire.onFinishedCb := by
  refine ⟨rfl, rfl, rfl, rfl, fun fn => ?_⟩
  cases fn with
  | ok v => exact ⟨rfl, rfl, rfl⟩
  | error e => exact ⟨rfl, rfl, rfl⟩

/-! ## Claim C9 -/

/-- A disabled record whose plugin nevertheless sits in the loaded map —
reachable because a failed `initialize()` leaves the instance loaded
(claim C1) and `enable_plugin` then flips the flag back to disabled. -/
def stateC9 : ManagerState :=
  ⟨[("p.dis", benignInst)], [], fun _ => [], fun _ => [], [],
    [mkRecord "p.dis" [] false false], [], []⟩

/-- Claim C9 counterexample: for a plugin whose stored record is disabled
but which is present in the loaded-plugin map, `load_plugin` returns `True`
(the early already-loaded return at manager.py line 297-299 precedes the
enabled check), not `False` as claimed. -/
theorem c9_disabled_loaded_counterexample :
    (getPlugin stateC9.repo "p.dis").map (fun r => r.enabled) = some false ∧
    (loadPlugin envAllOk 1 stateC9 "p.dis").2 = true :=
  ⟨rfl, rfl⟩

/-- Claim C9 amended: for every plugin id that is *not already in the
loaded-plugin map* and whose stored record is disabled, `load_plugin`
returns `False` with the state unchanged — no module import, no instance,
no new map entries. -/
theorem c9_disabled_not_loaded_amended (env : Env) (fuel : Nat)
    (s : ManagerState) (pid : String) (r : PluginRecord)
    (h1 : isLoaded s pid = false) (h2 : getPlugin s.repo pid = some r)
    (h3 : r.enabled = false) :
    loadPlugin env fuel s pid = (s, false) := by
  cases fuel with
  | zero => rfl
  | succ n =>
    unfold loadPlugin
    rw [h1, h2]
    simp [h3]

/-- Fresh manager with one disabled record and nothing loaded. -/
def stateC9b : ManagerState :=
  ⟨[], [], fun _ => [], fun _ => [], [], [mkRecord "p.dis" [] false false], [], []⟩

/-- Witness for the amended C9 theorem. -/
theorem c9_disabled_not_loaded_amended_witness :
    isLoaded stateC9b "p.dis" = false ∧
    getPlugin stateC9b.repo "p.dis" = some (mkRecord "p.dis" [] false false) ∧
    loadPlugin envAllOk 3 stateC9b "p.dis" = (stateC9b, false) :=
  ⟨rfl, rfl,
    c9_disabled_not_loaded_amended envAllOk 3 stateC9b "p.dis"
      (mkRecord "p.dis" [] false false) rfl rfl rfl⟩

/-! ## Claim C5 -/

/-- Manager with one loaded plugin appearing in the load order. -/
def stateC5 : ManagerState :=
  ⟨[("p.one", benignInst)], [], fun _ => [], fun _ => [], ["p.one"], [], [], []⟩

/-- Claim C5 counterexample: after a fully successful `stop_all_plugins`
call, the plugin is still in the loaded-plugin map — `stop_all_plugins`
does not unload (it never removes entries and never calls `cleanup()`), it
only calls `stop()`. -/
theorem c5_stop_all_counterexample :
    (stopAllPlugins stateC5).2.1 = true ∧
    (stopAllPlugins stateC5).2.2 = [UEff.stopCall "p.one"] ∧
    isLoaded (stopAllPlugins stateC5).1 "p.one" = true :=
  ⟨rfl, rfl, rfl⟩

/-- Whether the recorded instance for `pid` (if any) stops cleanly. -/
def stopOkFor (s : ManagerState) (pid : String) : Bool :=
  ((s.loadedPlugins.find? (fun e => e.1 == pid)).map
    (fun e => !e.2.stopRaises)).getD true

/-- Closed form of the `stop_all_plugins` loop: it calls `stop()` exactly on
the loaded ids of the traversed list, in traversal order, and the aggregate
flag is the accumulator conjoined with all per-plugin outcomes. -/
theorem stopAllList_spec (s : ManagerState) (l : List String) (b : Bool) :
    stopAllList s l b
      = (b && (l.filter (fun pid => isLoaded s pid)).all (stopOkFor s),
         (l.filter (fun pid => isLoaded s pid)).map UEff.stopCall) := by
  induction l generalizing b with
  | nil => simp [stopAllList]
  | cons pid rest ih =>
    cases h : s.loadedPlugins.find? (fun e => e.1 == pid) with
    | none =>
      have hl : isLoaded s pid = false := by simp [isLoaded, h]
      simp [stopAllList, h, hl, ih]
    | some e =>
      have hl : isLoaded s pid = true := by simp [isLoaded, h]
      have hok : stopOkFor s pid = !e.2.stopRaises := by simp [stopOkFor, h]
      cases hr : e.2.stopRaises <;>
        simp [stopAllList, h, hl, ih, hok, hr, Bool.and_assoc]

/-- Claim C5 amended: `stop_all_plugins` *stops* (calls `stop()` on) the
still-loaded plugins in the reverse of the most recent computed load order
— without removing them from the loaded-plugin map and without `cleanup()`
— tolerating individual stop failures (every loaded id in the reversed
order receives its `stop()` call regardless of earlier failures) and
returning an aggregate success boolean instead of raising. -/
theorem c5_stop_all_amended (s : ManagerState) :
    (stopAllPlugins s).1 = s ∧
    (stopAllPlugins s).2.2
      = (s.pluginLoadOrder.reverse.filter (fun pid => isLoaded s pid)).map
          UEff.stopCall ∧
    (stopAllPlugins s).2.1
      = (s.pluginLoadOrder.reverse.filter (fun pid => isLoaded s pid)).all
          (stopOkFor s) := by
  refine ⟨rfl, ?_, ?_⟩ <;>
    simp [stopAllPlugins, stopAllList_spec]

/-! ## Claim C3 -/

/-- A failing `unload_plugin` call leaves the manager state untouched
(every failure branch returns before any mutation). -/
theorem unloadPlugin_fail_state (s : ManagerState) (pid : String) :
    (unloadPlugin s pid).ok = false → (unloadPlugin s pid).state = s := by
  unfold unloadPlugin
  repeat' split
  all_goals intro h
  all_goals first
    | rfl
    | exact absurd h (by simp)

/-- `unload_plugin` never touches the repository. -/
theorem unloadPlugin_repo (s : ManagerState) (pid : String) :
    (unloadPlugin s pid).state.repo = s.repo := by
  unfold unloadPlugin
  repeat' split
  all_goals rfl

/-- After a successful `unload_plugin` call the plugin is not loaded. -/
theorem unloadPlugin_ok_not_loaded (s : ManagerState) (pid : String) :
    (unloadPlugin s pid).ok = true →
    isLoaded (unloadPlugin s pid).state pid = false := by
  unfold unloadPlugin
  repeat' split
  all_goals intro h
  all_goals simp at h
  · rename_i hnl
    simpa using hnl
  · simp [isLoaded, List.find?_isSome, List.mem_filter]

/-- A failing `install_plugin` call returns its input state unchanged:
every failure branch (bad package, missing required field, Python-package
dependency failure, already-installed without `force`) precedes the first
mutation. -/
theorem installPlugin_fail_state (env : Env) (fuel : Nat) (s : ManagerState)
    (pkg : Option Manifest) (enable force : Bool) :
    (installPlugin env fuel s pkg enable force).2.success = false →
    (installPlugin env fuel s pkg enable force).1 = s := by
  simp only [installPlugin]
  repeat' split
  all_goals intro h
  all_goals first
    | rfl
    | simp at h

/-- Manager with a loaded, enabled plugin `p.up` whose record and files are
present. -/
def stateC3 : ManagerState :=
  ⟨[("p.up", benignInst)], ["p.up"], fun _ => [], fun _ => [], ["p.up"],
    [mkRecord "p.up" [] true false], ["p.up"], []⟩

/-- Claim C3 counterexample: `p.up` is loaded before `update_plugin`; the
install step fails (invalid package), and afterwards `p.up` is *not*
loaded — the loaded state is not the same as immediately before the call,
because `update_plugin` unloads first and does not reload on install
failure. -/
theorem c3_update_install_failure_counterexample :
    isLoaded stateC3 "p.up" = true ∧
    (updatePlugin envAllOk 3 stateC3 "p.up" none false).2 = false ∧
    isLoaded (updatePlugin envAllOk 3 stateC3 "p.up" none false).1 "p.up"
      = false :=
  ⟨rfl, rfl, rfl⟩

/-- Claim C3 amended: if `update_plugin` fails at the install step then the
repository — hence the original record's version *and* enabled flag — is
unchanged; if the plugin was not loaded before the call the whole state is
unchanged; but a plugin that was loaded before the call (and whose unload
succeeded) is left unloaded rather than restored. -/
theorem c3_update_install_failure_amended (env : Env) (fuel : Nat)
    (s : ManagerState) (pid : String) (r : PluginRecord)
    (pkg : Option Manifest) (autoRestart : Bool)
    (h1 : getPlugin s.repo pid = some r)
    (hpkg : ∀ s' : ManagerState,
      (installPlugin env fuel s' pkg false true).2.success = false) :
    (updatePlugin env fuel s pid pkg autoRestart).2 = false ∧
    (updatePlugin env fuel s pid pkg autoRestart).1.repo = s.repo ∧
    (isLoaded s pid = false → (updatePlugin env fuel s pid pkg autoRestart).1 = s) ∧
    ((updatePlugin env fuel s pid pkg autoRestart).1 = s ∨
      isLoaded (updatePlugin env fuel s pid pkg autoRestart).1 pid = false) := by
  unfold updatePlugin
  rw [h1]
  cases hld : isLoaded s pid with
  | false =>
    have hfail := hpkg s
    have hst := installPlugin_fail_state env fuel s pkg false true hfail
    simp [hfail, hst]
  | true =>
    cases hu : (unloadPlugin s pid).ok with
    | false =>
      have hst := unloadPlugin_fail_state s pid hu
      simp [hu, hst]
    | true =>
      have hfail := hpkg (unloadPlugin s pid).state
      have hst := installPlugin_fail_state env fuel (unloadPlugin s pid).state
        pkg false true hfail
      have hnl := unloadPlugin_ok_not_loaded s pid hu
      simp [hu, hfail, hst, unloadPlugin_repo, hnl]

/-- Witness for the amended C3 theorem: the invalid package (`none`) makes
every install attempt fail, and `update_plugin` on the loaded plugin
`p.up` then fails with the repository unchanged and the plugin unloaded. -/
theorem c3_update_install_failure_amended_witness :
    getPlugin stateC3.repo "p.up" = some (mkRecord "p.up" [] true false) ∧
    ((updatePlugin envAllOk 3 stateC3 "p.up" none false).2 = false ∧
      (updatePlugin envAllOk 3 stateC3 "p.up" none false).1.repo = stateC3.repo ∧
      (isLoaded stateC3 "p.up" = false →
        (updatePlugin envAllOk 3 stateC3 "p.up" none false).1 = stateC3) ∧
      ((updatePlugin envAllOk 3 stateC3 "p.up" none false).1 = stateC3 ∨
        isLoaded (updatePlugin envAllOk 3 stateC3 "p.up" none false).1 "p.up"
          = false)) :=
  ⟨rfl,
    c3_update_install_failure_amended envAllOk 3 stateC3 "p.up"
      (mkRecord "p.up" [] true false) none false rfl (fun _ => rfl)⟩

/-! ## Claim C4 -/

/-- Membership in a `dependent_plugins` bucket: `q` is recorded as a
dependent of `d` exactly when some analysed plugin with id `q` lists `d`
among its dependencies. -/
theorem mem_dependentsOf (plugins : PluginsList) (d q : String) :
    q ∈ dependentsOf plugins d ↔ ∃ p ∈ plugins, p.1 = q ∧ d ∈ p.2 := by
  simp only [dependentsOf, List.mem_flatMap, List.mem_map, List.mem_filter]
  constructor
  · rintro ⟨p, hp, x, ⟨hx, hxd⟩, hq⟩
    exact ⟨p, hp, hq, by simpa [eq_comm] using (beq_iff_eq.mp hxd) ▸ hx⟩
  · rintro ⟨p, hp, hq, hd⟩
    exact ⟨p, hp, d, ⟨hd, by simp⟩, hq⟩

/-- Claim C4: when the dependency maps are the ones
`_analyze_plugin_dependencies` computed from `plugins`, unloading a loaded
plugin `pid` that some other loaded analysed plugin declares as a
dependency fails: the state is unchanged, `stop`/`cleanup` are not called,
and the reported blocking set consists exactly of the currently loaded
plugins declaring `pid` in their dependencies. -/
theorem c4_unload_blocked_by_dependents (s : ManagerState)
    (plugins : PluginsList) (pid : String)
    (hmap : s.dependentPlugins = fun d => dependentsOf plugins d)
    (hload : isLoaded s pid = true)
    (hdep : ∃ q, isLoaded s q = true ∧ ∃ p ∈ plugins, p.1 = q ∧ pid ∈ p.2) :
    (unloadPlugin s pid).state = s ∧
    (unloadPlugin s pid).ok = false ∧
    (unloadPlugin s pid).calls = [] ∧
    ∃ blockers, (unloadPlugin s pid).blockedBy = some blockers ∧
      ∀ q, q ∈ blockers ↔
        (isLoaded s q = true ∧ ∃ p ∈ plugins, p.1 = q ∧ pid ∈ p.2) := by
  have hmem : ∀ q, q ∈ (s.dependentPlugins pid).filter (fun q => isLoaded s q)
      ↔ (isLoaded s q = true ∧ ∃ p ∈ plugins, p.1 = q ∧ pid ∈ p.2) := by
    intro q
    rw [hmap]
    simp only [List.mem_filter, mem_dependentsOf]
    tauto
  have hne : ((s.dependentPlugins pid).filter (fun q => isLoaded s q)).isEmpty
      = false := by
    obtain ⟨q, hq⟩ := hdep
    have : q ∈ (s.dependentPlugins pid).filter (fun q => isLoaded s q) :=
      (hmem q).mpr hq
    rw [List.isEmpty_eq_false]
    exact List.ne_nil_of_mem this
  unfold unloadPlugin
  rw [hload, hne]
  exact ⟨rfl, rfl, rfl, _, rfl, hmem⟩

/-- The dependency pairs for the C4 witness: `q.one` depends on `d.zero`. -/
def pairsC4 : PluginsList := [("q.one", ["d.zero"]), ("d.zero", [])]

/-- Manager where both plugins are loaded and the maps come from
`_analyze_plugin_dependencies` on `pairsC4`. -/
def stateC4 : ManagerState :=
  ⟨[("q.one", benignInst), ("d.zero", benignInst)], [],
    fun p => depsOf pairsC4 p, fun d => dependentsOf pairsC4 d,
    ["d.zero", "q.one"],
    [mkRecord "q.one" ["d.zero"] true false, mkRecord "d.zero" [] true false],
    [], []⟩

/-- Witness for the C4 theorem: unloading `d.zero` while the loaded
`q.one` depends on it fails with blocking set exactly the loaded
dependents. -/
theorem c4_unload_blocked_by_dependents_witness :
    isLoaded stateC4 "d.zero" = true ∧
    ((unloadPlugin stateC4 "d.zero").state = stateC4 ∧
      (unloadPlugin stateC4 "d.zero").ok = false ∧
      (unloadPlugin stateC4 "d.zero").calls = [] ∧
      ∃ blockers, (unloadPlugin stateC4 "d.zero").blockedBy = some blockers ∧
        ∀ q, q ∈ blockers ↔
          (isLoaded stateC4 q = true ∧
            ∃ p ∈ pairsC4, p.1 = q ∧ "d.zero" ∈ p.2)) :=
  ⟨rfl,
    c4_unload_blocked_by_dependents stateC4 pairsC4 "d.zero" rfl rfl
      ⟨"q.one", rfl, ("q.one", ["d.zero"]), by decide, rfl, by decide⟩⟩

/-! ## Claim C7 -/

/-- The callback loop invokes exactly the entries of the list it was handed
(the snapshot), in order, whatever the callbacks do to the live state. -/
theorem runCbs_direct (pub : Subs → String → Subs × List (String × String))
    (ev : String) (l : List (String × List Act)) :
    ∀ s : Subs, (runCbs pub ev l s).2.1 = l.map Prod.fst := by
  induction l with
  | nil => intro s; rfl
  | cons e rest ih => intro s; simp [runCbs, ih]

/-- Bus with one subscriber to `"x"` whose callback subscribes a new
subscriber `"n"` to `"x"` while the publish is running. -/
def subsC7a : Subs := [("x", [("a", [Act.subscribeAct "x" "n" []])])]

/-- Bus with one subscriber to `"x"` whose callback re-entrantly publishes
`"x"` from inside the callback. -/
def subsC7b : Subs := [("x", [("a", [Act.publishAct "x"])])]

/-- Claim C7: a `publish` call invokes exactly the subscribers in the
snapshot of the subscriber list for the event type taken at the start of
the call (first conjunct, for every bus state, event type and nesting
budget).  Concretely: a subscriber added during the call ends up in the
subscriber list but is not invoked by that call (second group), and a
re-entrant `publish` of the same event type from inside a callback runs to
completion, delivering to its own snapshot (third group) — the model is a
total function, the lock having been released before callbacks run. -/
theorem c7_publish_snapshot :
    (∀ (fuel : Nat) (s : Subs) (ev : String),
      (publishE (fuel + 1) s ev).direct
        = (((s.find? (fun e => e.1 == ev)).map Prod.snd).getD []).map Prod.fst) ∧
    (publishE 2 subsC7a "x").direct = ["a"] ∧
    ((((publishE 2 subsC7a "x").subs.find? (fun e => e.1 == "x")).map
        Prod.snd).getD []).map Prod.fst = ["a", "n"] ∧
    (publishE 2 subsC7b "x").direct = ["a"] ∧
    (publishE 2 subsC7b "x").log = [("x", "a"), ("x", "a")] := by
  refine ⟨fun fuel s ev => ?_, rfl, rfl, rfl, rfl⟩
  simp [publishE, runCbs_direct]

/-! ## Claim C10

The correctness argument for `_determine_load_order` is a loop invariant:
writing `order` for the ids dequeued so far, the in-degree table always
holds, for each id `x`, the number of dependency occurrences of `x` not yet
in `order`; the queue and order are disjoint, duplicate-free, within the
key set, and every queued or ordered id has all its dependencies ordered.
That makes the loop's order duplicate-free, and the cycle fallback then
supplies every missing id exactly once. -/

/-- Dependency occurrences of `x` whose target is not yet in `order`. -/
def remCount (plugins : PluginsList) (order : List String) (x : String) : Nat :=
  ((depsOf plugins x).filter (fun d => decide (d ∉ order))).length

/-- Counting a constant-mapped list. -/
theorem count_map_const {γ : Type} (l : List γ) (c x : String) :
    (l.map (fun _ => c)).count x = if c = x then l.length else 0 := by
  induction l with
  | nil => simp
  | cons a l ih =>
    simp only [List.map_cons, List.count_cons, ih]
    by_cases h : c = x <;> simp [h]

/-- Every recorded dependent is one of the analysed plugin ids. -/
theorem dependentsOf_subset_keys (plugins : PluginsList) (q : String) :
    ∀ x ∈ dependentsOf plugins q, x ∈ plugins.map Prod.fst := by
  intro x hx
  obtain ⟨p, hp, hpx, -⟩ := (mem_dependentsOf plugins q x).mp hx
  exact List.mem_map.mpr ⟨p, hp, hpx⟩

/-- Ids outside the analysed set never occur in a dependents bucket. -/
theorem count_dependentsOf_zero (ps : PluginsList) (q x : String)
    (hx : x ∉ ps.map Prod.fst) : (dependentsOf ps q).count x = 0 :=
  List.count_eq_zero.mpr fun hmem => hx (dependentsOf_subset_keys ps q x hmem)

/-- With pairwise-distinct ids, `x` occurs in the dependents bucket of `q`
once per occurrence of `q` in the dependency list of `x`. -/
theorem count_dependentsOf (plugins : PluginsList)
    (hk : (plugins.map Prod.fst).Nodup) (x : String)
    (hx : x ∈ plugins.map Prod.fst) (q : String) :
    (dependentsOf plugins q).count x = (depsOf plugins x).count q := by
  induction plugins with
  | nil => simp at hx
  | cons p ps ih =>
    simp only [List.map_cons, List.nodup_cons] at hk
    have hblock : ((p.2.filter (fun y => y == q)).map (fun _ => p.1)).count x
        = if p.1 = x then p.2.count q else 0 := by
      rw [count_map_const]
      have : (p.2.filter (fun y => y == q)).length = p.2.count q := by
        rw [List.count, List.countP_eq_length_filter]
      split <;> simp [this]
    have hsplit : (dependentsOf (p :: ps) q).count x
        = ((p.2.filter (fun y => y == q)).map (fun _ => p.1)).count x
          + (dependentsOf ps q).count x := by
      simp [dependentsOf, List.count_append]
    simp only [List.map_cons, List.mem_cons] at hx
    rcases hx with hx | hx
    · have hnot : x ∉ ps.map Prod.fst := hx ▸ hk.1
      have hz := count_dependentsOf_zero ps q x hnot
      have hdeps : depsOf (p :: ps) x = p.2 := by
        simp [depsOf, List.find?_cons_of_pos, hx]
      rw [hsplit, hblock, hz, hdeps, if_pos hx.symm]
      omega
    · have hne : p.1 ≠ x := fun he => hk.1 (he ▸ hx)
      have hdeps : depsOf (p :: ps) x = depsOf ps x := by
        simp [depsOf, List.find?_cons_of_neg, hne]
      rw [hsplit, hblock, if_neg hne, hdeps, ih hk.2 hx]
      omega

/-- Extending the order by a fresh id splits the remaining-dependency count
into the count over the longer order plus the occurrences of that id. -/
theorem filter_notMem_append_singleton (l : List String) (order : List String)
    (q : String) (hq : q ∉ order) :
    (l.filter (fun d => decide (d ∉ order))).length
      = (l.filter (fun d => decide (d ∉ order ++ [q]))).length + l.count q := by
  induction l with
  | nil => simp
  | cons a l ih =>
    rw [List.filter_cons, List.filter_cons, List.count_cons]
    by_cases haq : a = q
    · subst haq
      rw [if_pos (by simpa using hq), if_neg (by simp), if_pos (by simp)]
      simp only [List.length_cons]
      omega
    · by_cases hao : a ∈ order
      · rw [if_neg (by simpa using hao),
          if_neg (by simp [List.mem_append, hao]),
          if_neg (by simp [haq])]
        omega
      · rw [if_pos (by simpa using hao),
          if_pos (by simp [List.mem_append, hao, haq]),
          if_neg (by simp [haq])]
        simp only [List.length_cons]
        omega

/-- `remCount` version of `filter_notMem_append_singleton`. -/
theorem remCount_append (plugins : PluginsList) (order : List String)
    (q : String) (hq : q ∉ order) (x : String) :
    remCount plugins order x
      = remCount plugins (order ++ [q]) x + (depsOf plugins x).count q := by
  unfold remCount
  exact filter_notMem_append_singleton (depsOf plugins x) order q hq

/-- The loop invariant of `_determine_load_order`, parameterised by the
dependents still to process for the current dequeued id (`rest`; the outer
loop state is the `rest = []` instance):
the ordered and queued ids are jointly duplicate-free, lie in the key set,
have all their dependencies ordered and no pending decrement; and the
in-degree of every key equals its not-yet-ordered dependency occurrences
plus its pending decrements. -/
def FoldInv (plugins : PluginsList) (order1 : List String)
    (indeg : String → Int) (queue rest : List String) : Prop :=
  (order1 ++ queue).Nodup ∧
  (∀ x ∈ plugins.map Prod.fst,
      indeg x = (remCount plugins order1 x : Int) + (rest.count x : Int)) ∧
  (∀ m ∈ order1 ++ queue,
      depsOf plugins m ⊆ order1 ∧ rest.count m = 0) ∧
  (∀ m ∈ order1 ++ queue, m ∈ plugins.map Prod.fst) ∧
  (∀ d ∈ rest, d ∈ plugins.map Prod.fst)

/-- One unfolding of the dependents-processing loop. -/
theorem processDependents_cons (indeg : String → Int) (queue : List String)
    (d : String) (rest : List String) :
    processDependents indeg queue (d :: rest)
      = processDependents (fun x => if x = d then indeg x - 1 else indeg x)
          (if indeg d - 1 = 0 then queue ++ [d] else queue) rest := by
  simp [processDependents]

/-- Processing the dependents list preserves the invariant, emptying the
pending decrements. -/
theorem processDependents_inv (plugins : PluginsList) (order1 : List String) :
    ∀ (rest : List String) (indeg : String → Int) (queue : List String),
      FoldInv plugins order1 indeg queue rest →
      FoldInv plugins order1 (processDependents indeg queue rest).1
        (processDependents indeg queue rest).2 [] := by
  intro rest
  induction rest with
  | nil => exact fun indeg queue h => h
  | cons d rest ih =>
    intro indeg queue h
    obtain ⟨hnd, hdeg, hmem, hkeys, hrest⟩ := h
    have hdkey : d ∈ plugins.map Prod.fst := hrest d (List.mem_cons_self d rest)
    have hrest' : ∀ e ∈ rest, e ∈ plugins.map Prod.fst :=
      fun e he => hrest e (List.mem_cons_of_mem d he)
    have hdeg' : ∀ x ∈ plugins.map Prod.fst,
        (fun x => if x = d then indeg x - 1 else indeg x) x
          = (remCount plugins order1 x : Int) + (rest.count x : Int) := by
      intro x hx
      by_cases hxd : x = d
      · subst hxd
        have hd := hdeg _ hx
        have hc : (x :: rest).count x = rest.count x + 1 := by
          simp [List.count_cons]
        simp only [if_pos rfl]
        rw [hd, hc]
        push_cast
        ring
      · have hd := hdeg x hx
        have hc : (d :: rest).count x = rest.count x := by
          rw [List.count_cons]
          simp [show ¬ d = x from fun h => hxd h.symm]
        simp only [if_neg hxd]
        rw [hd, hc]
    have hmem' : ∀ m ∈ order1 ++ queue,
        depsOf plugins m ⊆ order1 ∧ rest.count m = 0 := by
      intro m hm
      refine ⟨(hmem m hm).1, ?_⟩
      have h2 := (hmem m hm).2
      rw [List.count_cons] at h2
      exact Nat.eq_zero_of_add_eq_zero_right h2
    rw [processDependents_cons]
    by_cases hz : indeg d - 1 = 0
    · rw [if_pos hz]
      have hdz : (fun x => if x = d then indeg x - 1 else indeg x) d = 0 := by
        simpa using hz
      have hsum : (remCount plugins order1 d : Int) + (rest.count d : Int) = 0 := by
        rw [← hdeg' d hdkey]; exact hdz
      have hrem0 : remCount plugins order1 d = 0 := by omega
      have hcnt0 : rest.count d = 0 := by omega
      have hdsub : depsOf plugins d ⊆ order1 := by
        intro y hy
        by_contra hyn
        have hmemf : y ∈ (depsOf plugins d).filter
            (fun z => decide (z ∉ order1)) :=
          List.mem_filter.mpr ⟨hy, by simpa using hyn⟩
        rw [List.length_eq_zero.mp hrem0] at hmemf
        simp at hmemf
      have hdnotin : d ∉ order1 ++ queue := by
        intro hmem_d
        have := (hmem d hmem_d).2
        simp [List.count_cons] at this
      refine ih _ _ ⟨?_, hdeg', ?_, ?_, hrest'⟩
      · rw [← List.append_assoc]
        exact List.nodup_append.mpr
          ⟨hnd, List.nodup_singleton d, List.disjoint_singleton.mpr hdnotin⟩
      · intro m hm
        rw [← List.append_assoc, List.mem_append] at hm
        rcases hm with hm | hm
        · exact hmem' m hm
        · have : m = d := by simpa using hm
          subst this
          exact ⟨hdsub, hcnt0⟩
      · intro m hm
        rw [← List.append_assoc, List.mem_append] at hm
        rcases hm with hm | hm
        · exact hkeys m hm
        · have : m = d := by simpa using hm
          subst this
          exact hdkey
    · rw [if_neg hz]
      exact ih _ _ ⟨hnd, hdeg', hmem', hkeys, hrest'⟩

/-- The fuelled Kahn loop keeps its order duplicate-free and inside the key
set whenever it starts from an invariant state. -/
theorem topoLoop_inv (plugins : PluginsList)
    (hk : (plugins.map Prod.fst).Nodup) :
    ∀ (fuel : Nat) (indeg : String → Int) (queue order : List String),
      FoldInv plugins order indeg queue [] →
      (topoLoop plugins fuel indeg queue order).Nodup ∧
      ∀ x ∈ topoLoop plugins fuel indeg queue order,
        x ∈ plugins.map Prod.fst := by
  intro fuel
  induction fuel with
  | zero =>
    intro indeg queue order h
    exact ⟨h.1.of_append_left,
      fun x hx => h.2.2.2.1 x (List.mem_append.mpr (Or.inl hx))⟩
  | succ n ih =>
    intro indeg queue order h
    match queue with
    | [] =>
      exact ⟨h.1.of_append_left,
        fun x hx => h.2.2.2.1 x (List.mem_append.mpr (Or.inl hx))⟩
    | q :: tl =>
      obtain ⟨hnd, hdeg, hmem, hkeys, -⟩ := h
      have hqmem : q ∈ order ++ q :: tl :=
        List.mem_append.mpr (Or.inr (List.mem_cons_self q tl))
      have hqkey : q ∈ plugins.map Prod.fst := hkeys q hqmem
      have hqnotord : q ∉ order := fun hq =>
        (List.nodup_append.mp hnd).2.2 hq (List.mem_cons_self q tl)
      have hdepq : depsOf plugins q ⊆ order := (hmem q hqmem).1
      have hfold : FoldInv plugins (order ++ [q]) indeg tl
          (dependentsOf plugins q) := by
        refine ⟨?_, ?_, ?_, ?_, dependentsOf_subset_keys plugins q⟩
        · rw [List.append_assoc]
          simpa [← List.append_cons] using hnd
        · intro x hx
          have hd := hdeg x hx
          rw [List.count_nil] at hd
          have hcd := count_dependentsOf plugins hk x hx q
          have hra := remCount_append plugins order q hqnotord x
          rw [hd]
          push_cast [hra, hcd]
          ring
        · intro m hm
          rw [← List.append_cons] at hm
          have hmkey : m ∈ plugins.map Prod.fst := hkeys m hm
          have hmdep : depsOf plugins m ⊆ order := (hmem m hm).1
          refine ⟨fun y hy => List.mem_append.mpr (Or.inl (hmdep hy)), ?_⟩
          rw [count_dependentsOf plugins hk m hmkey q]
          exact List.count_eq_zero.mpr fun hqin => hqnotord (hmdep hqin)
        · intro m hm
          rw [← List.append_cons] at hm
          exact hkeys m hm
      have hstep := processDependents_inv plugins (order ++ [q])
        (dependentsOf plugins q) indeg tl hfold
      exact ih _ _ _ hstep

/-- Claim C10: with pairwise-distinct plugin ids, the order computed by
`_determine_load_order` is a permutation of the ids in the dependency map
— every id appears exactly once, also with cyclic dependencies or
dependencies on ids outside the enabled set, the unordered remainder being
appended rather than dropped. -/
theorem c10_load_order_permutation (plugins : PluginsList)
    (hk : (plugins.map Prod.fst).Nodup) :
    (determineLoadOrder plugins).Perm (plugins.map Prod.fst) := by
  have hinit : FoldInv plugins []
      (initInDegree plugins)
      ((plugins.map Prod.fst).filter
        (fun pid => decide (initInDegree plugins pid = 0)))
      [] := by
    refine ⟨?_, ?_, ?_, ?_, ?_⟩
    · simpa using hk.filter _
    · intro x hx
      simp [remCount, initInDegree]
    · intro m hm
      simp only [List.nil_append, List.mem_filter] at hm
      have h0 : (depsOf plugins m).length = 0 := by
        have := hm.2
        simp only [initInDegree, decide_eq_true_eq] at this
        exact_mod_cast this
      refine ⟨?_, List.count_nil m⟩
      rw [List.length_eq_zero.mp h0]
      exact List.nil_subset _
    · intro m hm
      simp only [List.nil_append, List.mem_filter] at hm
      exact hm.1
    · intro d hd
      simp at hd
  have hloop := topoLoop_inv plugins hk
    ((plugins.map Prod.fst).length + 1) (initInDegree plugins)
    ((plugins.map Prod.fst).filter
      (fun pid => decide (initInDegree plugins pid = 0)))
    [] hinit
  obtain ⟨hnod, hsub⟩ := hloop
  simp only [determineLoadOrder]
  split
  next hlen =>
    refine (List.perm_ext_iff_of_nodup ?_ hk).mpr ?_
    · refine List.nodup_append.mpr ⟨hnod, hk.filter _, ?_⟩
      intro a ha haf
      have h2 := (List.mem_filter.mp haf).2
      simp only [decide_eq_true_eq] at h2
      exact h2 ha
    · intro a
      rw [List.mem_append, List.mem_filter]
      constructor
      · rintro (h | h)
        · exact hsub a h
        · exact h.1
      · intro hak
        by_cases h : a ∈ topoLoop plugins ((plugins.map Prod.fst).length + 1)
            (initInDegree plugins)
            ((plugins.map Prod.fst).filter
              (fun pid => decide (initInDegree plugins pid = 0))) []
        · exact Or.inl h
        · exact Or.inr ⟨hak, by simpa using h⟩
  next hlen =>
    have hsp := (hnod.subperm (fun a ha => hsub a ha)).perm_of_length_le
      (by omega)
    exact hsp

/-- A dependency map with a two-cycle (`a` and `b` depend on each other)
and a dependency on `zz`, an id outside the enabled set. -/
def pairsC10 : PluginsList := [("a", ["b"]), ("b", ["a"]), ("c", ["zz"])]

/-- Witness for the C10 theorem on the cyclic example: the computed order
is a permutation of the three ids (here all three come from the cycle
fallback). -/
theorem c10_load_order_permutation_witness :
    (pairsC10.map Prod.fst).Nodup ∧
    (determineLoadOrder pairsC10).Perm (pairsC10.map Prod.fst) :=
  ⟨by decide, c10_load_order_permutation pairsC10 (by decide)⟩

end EdgePlugHub
